import Mathlib

/-!
Verification development for the plugin loading subsystem of
`hangupsbot/plugins/__init__.py`: the registration tracker, the module
lister, the plugin selector, and the plugin loader.

Each Lean definition is a shallow embedding of the corresponding Python
function, keeping the source's names where Lean allows it.  Python
machine-level details that matter to the embedding (list aliasing,
dict insertion order, truthiness) are modelled explicitly and noted at
the definition they affect.
-/

set_option autoImplicit false

/-! ## Python string primitives used by the source -/

/-- Python `str.startswith`: `p` is a prefix of `s`. -/
def pyStartsWith (s p : String) : Bool := p.data.isPrefixOf s.data

/-- Python `str.endswith`: `p` is a suffix of `s`. -/
def pyEndsWith (s p : String) : Bool := p.data.isSuffixOf s.data

/-- Character-level worker for `formatTag`: each `\x7b\x7d` placeholder pair
in the template is replaced by the `name` argument. -/
def formatChars (name : String) : List Char → List Char
  | [] => []
  | '\x7b' :: '\x7d' :: rest => name.data ++ formatChars name rest
  | c :: rest => c :: formatChars name rest

/-- Python `tpl.format(name)` for templates whose only placeholders are
empty braces (the shape the source uses for tag templates). -/
def formatTag (tpl name : String) : String := String.mk (formatChars name tpl.data)

/-- Python `path.split(".")[-1]`: the last dot-separated component
(`load`, line 249). -/
def moduleNameOf (path : String) : String :=
  String.mk ((path.data.reverse.takeWhile (fun c => !(c == '.'))).reverse)

/-- Python `os.path.splitext(name)[0]` for directory-entry names that are not
skipped (they do not begin with `.`): the name up to its last dot, or the whole
name when it has no dot (`retrieve_all_plugins`, line 156). -/
def splitextBase (s : String) : String :=
  if s.data.contains '.' then
    String.mk (((s.data.reverse.dropWhile (fun c => !(c == '.'))).drop 1).reverse)
  else s

/-! ## Tag data model (`tracker.register_tags`, lines 65-98) -/

/-- One element of the Python `tags` list: either a single tag string or a
list of tags (a tag combination). -/
inductive TagItem where
  | single (s : String)
  | combo (l : List String)
deriving DecidableEq

/-- The Python `tags` argument of `register_tags`: `None`, a bare string, or
a list of tag items. -/
inductive PyTags where
  | nonePy
  | str (s : String)
  | list (items : List TagItem)
deriving DecidableEq

/-- Python truthiness of the `tags` argument (`if tags:` on line 70):
`None`, the empty string and the empty list are falsy. -/
def pyTruthy : PyTags → Bool
  | .nonePy => false
  | .str s => !(s == "")
  | .list items => !items.isEmpty

/-- The `isinstance(tags, str)` normalisation on lines 71-72; only applied
to truthy values. -/
def normItems : PyTags → List TagItem
  | .str s => [TagItem.single s]
  | .list items => items
  | .nonePy => []

/-- Value of the `plugins.tags.auto-register` config option as read on
line 66: a Python bool or a string template.  An absent option is mapped by
lines 67-68 to `pybool true` before use. -/
inductive AutoRegValue where
  | pybool (b : Bool)
  | pystr (s : String)
deriving DecidableEq

/-- Python truthiness of the auto-register option (`if not ...: return` on
line 74 and `if config_plugins_tags_autoregister:` on line 83). -/
def pyTruthyAutoReg : AutoRegValue → Bool
  | .pybool b => b
  | .pystr s => !(s == "")

/-- The synthesized tag for a command name, lines 84-87 and 91: the template
is `execute-\x7b\x7d` when the option is the Python literal `True`, otherwise
the option's own string value; the command name is formatted in. -/
def synthTag : AutoRegValue → String → String
  | .pybool _, name => formatTag "execute-\x7b\x7d" name
  | .pystr tpl, name => formatTag tpl name

/-- A tag-set: `frozenset(item if isinstance(item, list) else [item])`,
line 93. -/
abbrev TagSet := Finset String

/-- `frozenset` conversion of one tag item (line 93). -/
def itemSet : TagItem → TagSet
  | .single s => {s}
  | .combo l => l.toFinset

/-- `set(frozenset(...) for item in base)`, line 93. -/
def tagsetsOf (base : List TagItem) : Finset TagSet :=
  (base.map itemSet).toFinset

/-! ## The `tagged` dict: `self._current["commands"]["tagged"]`,
a Python dict from command name to a set of tag-sets, in insertion order. -/

abbrev TagDict := List (String × Finset TagSet)

/-- Dict lookup, first binding wins (Python dicts have unique keys; every
operation below preserves that). Absent keys read as the empty set, which is
exactly the value lines 79-80 would insert for them. -/
def tagLookup : TagDict → String → Finset TagSet
  | [], _ => ∅
  | (k', v) :: rest, k => if k' = k then v else tagLookup rest k

/-- Python `command in self._current["commands"]["tagged"]` (line 79). -/
def hasKey : TagDict → String → Bool
  | [], _ => false
  | (k', _) :: rest, k => if k' = k then true else hasKey rest k

/-- Python dict assignment to an existing key: value replaced in place,
position preserved. -/
def tagUpdate : TagDict → String → Finset TagSet → TagDict
  | [], _, _ => []
  | (k', v') :: rest, k, v =>
    if k' = k then (k, v) :: tagUpdate rest k v else (k', v') :: tagUpdate rest k v

/-- Lines 79-80: `if command not in tagged: tagged[command] = set()` -
insert an empty binding at the end when the key is absent. -/
def tagInsertDefault (d : TagDict) (k : String) : TagDict :=
  if hasKey d k then d else d ++ [(k, ∅)]

/-- Lines 79-80 and 95-97 for one command name with its computed `tagsets`:
ensure the key exists, then union the new tag-sets in only when they are a
strict superset of the existing ones (`if tagsets > tagged[command]:`). -/
def tagStore (d : TagDict) (k : String) (tagsets : Finset TagSet) : TagDict :=
  let d1 := tagInsertDefault d k
  let old := tagLookup d1 k
  if old ⊂ tagsets then tagUpdate d1 k (old ∪ tagsets) else d1

/-- The `for command in command_names:` loop of `register_tags`
(lines 78-98).  The loop state carries the live `tags` list when the caller
passed a truthy list: `base = tags` on line 82 aliases that list, so the
`base += [...]` on line 91 mutates it in place and the next iteration sees
the grown list.  When `tags` was falsy, `base = []` on lines 89-90 creates a
fresh list each iteration (`cur = none` here) and nothing is shared. -/
def tracker.registerTagsLoop (autoreg : AutoRegValue) :
    List String → TagDict → Option (List TagItem) → TagDict × Option (List TagItem)
  | [], d, cur => (d, cur)
  | name :: rest, d, cur =>
    let base0 := cur.getD []
    let base1 :=
      if pyTruthyAutoReg autoreg then base0 ++ [TagItem.single (synthTag autoreg name)]
      else base0
    let d' := tagStore d name (tagsetsOf base1)
    tracker.registerTagsLoop autoreg rest d' (cur.map (fun _ => base1))

/-- `tracker.register_tags` (lines 65-98).  `autoreg` is the value of
`plugins.tags.auto-register` after the `None -> True` defaulting of
lines 66-68.  Returns the updated `tagged` dict together with the
caller-visible state of the `tags` argument after the call: when the caller
passed a truthy list object, that object has been mutated in place by the
loop; a bare string is rebound locally on line 72 and the caller's value is
unchanged; falsy arguments are never mutated. -/
def tracker.register_tags (autoreg : AutoRegValue) (d : TagDict)
    (command_names : List String) (tags : PyTags) : TagDict × PyTags :=
  if pyTruthy tags then
    let items := normItems tags
    let out := tracker.registerTagsLoop autoreg command_names d (some items)
    (out.1,
      match tags with
      | PyTags.list _ => PyTags.list (out.2.getD items)
      | _ => tags)
  else if !(pyTruthyAutoReg autoreg) then
    -- line 74-75: nothing to register and auto-registration disabled
    (d, tags)
  else
    ((tracker.registerTagsLoop autoreg command_names d none).1, tags)

/-! ## Tracking scope (`tracker.reset` / `tracker.start`, lines 27-42) -/

/-- The `_current` tracking scope of the `tracker` class.  The source keeps
`admin`/`user` as Python lists deduplicated with `list(set(...))`
(lines 60-61), whose order is unspecified; only membership is ever consumed
(lines 320-327), so they are modelled as finite sets.  `all` is not stored:
`current()` recomputes it (see `Scope.allCmds`). -/
structure Scope where
  metadata : Option (String × String)
  admin : Finset String
  user : Finset String
  tagged : TagDict
  handlers : List (Nat × String × Nat)
  shared : List (String × Nat × Bool)
deriving DecidableEq

/-- `tracker.reset` (lines 27-38): a fresh empty scope. -/
def tracker.reset : Scope :=
  { metadata := none, admin := ∅, user := ∅, tagged := [], handlers := [], shared := [] }

/-- `tracker.start(metadata)` (lines 40-42): reset, then record the module
name and module path. -/
def tracker.start (metadata : String × String) : Scope :=
  { tracker.reset with metadata := some metadata }

/-- The `all` view recomputed by `tracker.current()` (lines 44-48):
`list(set(admin + user))`. -/
def Scope.allCmds (sc : Scope) : Finset String := sc.admin ∪ sc.user

/-- Command kind selector: the `type` argument of `register_command`. -/
inductive CmdKind where
  | admin
  | user
deriving DecidableEq

/-- `tracker.register_command(type, command_names, tags)` (lines 58-63):
union the names into the selected list (`extend` + `list(set(...))`), then
register tags for them. -/
def tracker.register_command (autoreg : AutoRegValue) (sc : Scope)
    (kind : CmdKind) (command_names : List String) (tags : PyTags) : Scope :=
  let sc1 :=
    match kind with
    | CmdKind.admin => { sc with admin := sc.admin ∪ command_names.toFinset }
    | CmdKind.user => { sc with user := sc.user ∪ command_names.toFinset }
  { sc1 with tagged := (tracker.register_tags autoreg sc1.tagged command_names tags).1 }

/-- `tracker.register_handler(function, type, priority)` (lines 100-101):
append to the scope's handler list.  Callables are identified by a numeric
id. -/
def tracker.register_handler (sc : Scope) (function : Nat) (type : String)
    (priority : Nat) : Scope :=
  { sc with handlers := sc.handlers ++ [(function, type, priority)] }

/-! ## Module-level helpers (lines 113-133) -/

/-- `register_user_command(command_names, tags)` (lines 113-117).  The
source wraps a bare string into a one-element list; the embedding takes the
list form. -/
def register_user_command (autoreg : AutoRegValue) (sc : Scope)
    (command_names : List String) (tags : PyTags) : Scope :=
  tracker.register_command autoreg sc CmdKind.user command_names tags

/-- `register_admin_command(command_names, tags)` (lines 119-123). -/
def register_admin_command (autoreg : AutoRegValue) (sc : Scope)
    (command_names : List String) (tags : PyTags) : Scope :=
  tracker.register_command autoreg sc CmdKind.admin command_names tags

/-- The writable state visible to the module-level `register_handler`
helper: the tracker's current scope and the host's handler registry
(`tracking.bot._handlers`). -/
structure TrackingEnv where
  scope : Scope
  botHandlers : List (Nat × String × Nat)
deriving DecidableEq

/-- Module-level `register_handler(function, type, priority)`
(lines 125-128): the entry is forwarded directly to
`tracking.bot._handlers.register_handler`; the tracker's scope is not
touched (the `tracker.register_handler` method is not called here). -/
def register_handler (env : TrackingEnv) (function : Nat) (type : String)
    (priority : Nat) : TrackingEnv :=
  { env with botHandlers := env.botHandlers ++ [(function, type, priority)] }

/-! ## Module lister (`retrieve_all_plugins`, lines 139-177) -/

/-- A directory entry: a file or a directory with its children. -/
inductive FsNode where
  | file (name : String)
  | dir (name : String) (children : List FsNode)

/-- The entry's name (`node_name`). -/
def nodeName : FsNode → String
  | .file n => n
  | .dir n _ => n

/-- Line 158: `node_name.startswith(("_", "."))`. -/
def skipName (n : String) : Bool := pyStartsWith n "_" || pyStartsWith n "."

/-- Line 161: `must_start_with and not node_name.startswith(must_start_with)`.
The recursion passes the parent directory's name; the top-level call passes
the falsy default (`none` here). -/
def skipPrefix (msw : Option String) (n : String) : Bool :=
  match msw with
  | none => false
  | some p => !(pyStartsWith n p)

/-- Line 168: `os.path.isfile(os.path.join(full_path, "__init__.py"))`. -/
def hasIndexModule (children : List FsNode) : Bool :=
  children.any (fun c =>
    match c with
    | .file n => n == "__init__.py"
    | .dir _ _ => false)

/-- `retrieve_all_plugins(plugin_path, must_start_with)` (lines 139-177),
over a modelled directory listing.  A file contributes its extension-free
name when it ends in `.py`; a directory contributes its name and, only when
it contains an `__init__.py` index module, its recursively listed children
prefixed with `parentName.`; entries beginning with `_` or `.`, or failing
the `must_start_with` filter, contribute nothing. -/
def retrieve_all_plugins : List FsNode → Option String → List String
  | [], _ => []
  | FsNode.file name :: rest, msw =>
    (if skipName name || skipPrefix msw name then []
     else if pyEndsWith name ".py" then [splitextBase name]
     else []) ++ retrieve_all_plugins rest msw
  | FsNode.dir name children :: rest, msw =>
    (if skipName name || skipPrefix msw name then []
     else if hasIndexModule children then
       splitextBase name ::
         (retrieve_all_plugins children (some name)).map
           (fun sm => splitextBase name ++ "." ++ sm)
     else []) ++ retrieve_all_plugins rest msw

/-! ## Plugin selector (`get_configured_plugins`, lines 180-232) -/

/-- The selector's running state: `plugins_included`, `plugins_excluded`
(the remaining candidate pool, initially all discovered plugins),
`plugin_name_ambiguous` and `plugin_name_not_found` (lines 192-196). -/
structure SelectState where
  included : List String
  excluded : List String
  ambiguous : List String
  notFound : List String
deriving DecidableEq

/-- Lines 199-205: the discovered names still in the pool whose
fully-qualified form `"plugins." + found` ends with `"." + configured`. -/
def selMatches (st : SelectState) (configured : String) : List String :=
  st.excluded.filter (fun found => pyEndsWith ("plugins." ++ found) ("." ++ configured))

/-- One iteration of the `for configured in config_plugins:` loop
(lines 198-217): zero matches are recorded as not-found, a unique match is
included and removed from the pool (`list.remove`, first occurrence), and
multiple matches record the fragment as ambiguous without including any
match. -/
def selectOne (st : SelectState) (configured : String) : SelectState :=
  let ms := selMatches st configured
  if ms.length == 0 then
    { st with notFound := st.notFound ++ [configured] }
  else if ms.length == 1 then
    { st with
      included := st.included ++ [ms.headD ""],
      excluded := st.excluded.erase (ms.headD "") }
  else
    { st with ambiguous := st.ambiguous ++ [configured] }

/-- `get_configured_plugins(bot)` (lines 180-232) given the discovered
plugin list and the `plugins` config option (`none` models an unset/null
option, meaning load all). -/
def get_configured_plugins (all_plugins : List String)
    (config_plugins : Option (List String)) : List String :=
  match config_plugins with
  | none => all_plugins
  | some cfg => (cfg.foldl selectOne ⟨[], all_plugins, [], []⟩).included

/-! ## Plugin loader (`load` / `load_user_plugins`, lines 235-340) -/

/-- A registration performed by plugin code through the module-level
helpers, either declaratively at import time or imperatively inside the
initialization entry point. -/
inductive RegAction where
  | userCmd (names : List String) (tags : PyTags)
  | adminCmd (names : List String) (tags : PyTags)
deriving DecidableEq

/-- Apply one registration to the current scope. -/
def applyAction (autoreg : AutoRegValue) (sc : Scope) : RegAction → Scope
  | RegAction.userCmd names tags => register_user_command autoreg sc names tags
  | RegAction.adminCmd names tags => register_admin_command autoreg sc names tags

/-- A Python return value as classified by `type(_return) is list`
(line 293): a list of command names, or anything else (including `None`). -/
inductive PyRet where
  | list (cmds : List String)
  | other
deriving DecidableEq

/-- What a call of the initialization entry point does once its body runs:
raise an exception, or return a value.  A raising entry point may already
have performed its `actions` before raising. -/
inductive InitOutcome where
  | raises
  | returns (r : PyRet)
deriving DecidableEq

/-- A public function of the module as enumerated by
`getmembers(module, isfunction)` (line 259): its name, its signature's
parameter names (line 279), whether calling it with the two legacy
arguments fails with a `TypeError` before its body runs (line 290), and -
relevant only when it is an entry point - the registrations its body
performs and its outcome. -/
structure PyFunc where
  name : String
  params : List String
  raisesOnTwoArgs : Bool
  actions : List RegAction
  outcome : InitOutcome
deriving DecidableEq

/-- Which of the four supported call shapes is used for the entry point
(lines 279-292). -/
inductive CallShape where
  | noArgs
  | botArg
  | legacyTwo
  | legacyOne
deriving DecidableEq

/-- The signature dispatch of lines 279-292: zero parameters are called
with no arguments; exactly one parameter named `bot` is called with the
host instance; otherwise the two-argument legacy call is attempted, falling
back to the one-argument legacy call when it raises a `TypeError`. -/
def resolveCall (params : List String) (twoArgTypeError : Bool) : CallShape :=
  if params.length == 0 then CallShape.noArgs
  else if params.length == 1 && params.headD "" == "bot" then CallShape.botArg
  else if twoArgTypeError then CallShape.legacyOne
  else CallShape.legacyTwo

/-- Calling the entry point (lines 279-292): its registrations mutate the
scope; it then raises (`none`) or yields the value bound to `_return`.  For
the zero-parameter and `bot` shapes the source hardcodes `_return = []`
(lines 282 and 285), discarding the function's actual return value. -/
def callEntry (autoreg : AutoRegValue) (sc : Scope) (f : PyFunc) :
    Scope × Option PyRet :=
  let sc' := f.actions.foldl (applyAction autoreg) sc
  match f.outcome with
  | InitOutcome.raises => (sc', none)
  | InitOutcome.returns r =>
    match resolveCall f.params f.raisesOnTwoArgs with
    | CallShape.noArgs => (sc', some (PyRet.list []))
    | CallShape.botArg => (sc', some (PyRet.list []))
    | CallShape.legacyTwo => (sc', some r)
    | CallShape.legacyOne => (sc', some r)

/-- `available_commands` (line 267): the Python literal `False`
("default: ALL") or a list captured from an entry point's return. -/
inductive Avail where
  | fals
  | list (cmds : List String)
deriving DecidableEq

/-- Result of pass 1 (lines 263-298): either the loop finished with the
final scope, the collected candidate command names and `available_commands`,
or an entry point raised and the plugin load was aborted mid-loop with the
scope as the exception left it. -/
inductive Pass1Result where
  | ok (sc : Scope) (candidates : List String) (avail : Avail)
  | aborted (sc : Scope)
deriving DecidableEq

/-- Whether pass 1 ended in the exception handler of lines 308-310. -/
def Pass1Result.isAborted : Pass1Result → Bool
  | .aborted _ => true
  | .ok _ _ _ => false

/-- The scope carried by a pass-1 result. -/
def Pass1Result.scopeOf : Pass1Result → Scope
  | .aborted sc => sc
  | .ok sc _ _ => sc

/-- `available_commands` of a completed pass 1. -/
def Pass1Result.availOf : Pass1Result → Option Avail
  | .aborted _ => none
  | .ok _ _ a => some a

/-- Line 270: `function_name == "_initialise" or function_name == "_initialize"`. -/
def isEntryName (n : String) : Bool := n == "_initialise" || n == "_initialize"

/-- The pass-1 `for function_name, the_function in public_functions:` loop
(lines 269-298): entry points are called (a raise aborts the whole pass, as
the exception propagates to the handler on line 308), a list return value
overwrites `available_commands`, other underscore-prefixed names are
skipped, and everything else is collected as a candidate command. -/
def pass1 (autoreg : AutoRegValue) :
    List PyFunc → Scope → List String → Avail → Pass1Result
  | [], sc, cands, avail => Pass1Result.ok sc cands avail
  | f :: rest, sc, cands, avail =>
    if isEntryName f.name then
      match callEntry autoreg sc f with
      | (sc', none) => Pass1Result.aborted sc'
      | (sc', some (PyRet.list l)) => pass1 autoreg rest sc' cands (Avail.list l)
      | (sc', some PyRet.other) => pass1 autoreg rest sc' cands avail
    else if pyStartsWith f.name "_" then
      pass1 autoreg rest sc cands avail
    else
      pass1 autoreg rest sc (cands ++ [f.name]) avail

/-- The external command dispatcher's state as mutated by this subsystem:
`command.register(the_function, admin=..., final=True)` entries (line 331,
keyed here by the candidate's name) and `command.register_tags(name,
tagsets)` entries flushed by `tracker.end` (lines 53-56). -/
structure Dispatcher where
  commands : List (String × Bool)
  tags : TagDict
deriving DecidableEq

/-- The loader's persistent state across plugin loads: the tracker's
current scope (`tracking._current`), the archive (`tracking.list`, appended
by `tracker.end` on line 51) and the external dispatcher. -/
structure LoadState where
  scope : Scope
  history : List Scope
  dispatcher : Dispatcher
deriving DecidableEq

/-- A plugin module as the loader sees it: its dotted path, whether
importing it raises (line 254-257), the declarative registrations its body
performs when the import runs, and its public functions. -/
structure PyModule where
  path : String
  importRaises : Bool
  importActions : List RegAction
  functions : List PyFunc
deriving DecidableEq

/-- `load(bot, module_path)` (lines 245-340) for the default
`module_name=None` case.  Opens a fresh tracking scope, imports the module
(running its declarative registrations; an import failure returns early),
runs pass 1 (an entry-point exception returns early: neither pass 2's
`command.register` calls nor `tracker.end`'s archive-and-flush happen),
applies the `available_commands` fallback (the `available_commands is []`
test on line 302 compares identity with a fresh list and is therefore never
true, so a captured list - empty or not - always reaches the
`register_user_command(available_commands)` branch), then registers every
candidate present in the merged `all` view with its admin flag and finally
performs `tracker.end`: archive the scope and flush its tagged commands to
the dispatcher's tag registry. -/
def load (autoreg : AutoRegValue) (st : LoadState) (m : PyModule) : LoadState :=
  let sc0 := tracker.start (moduleNameOf m.path, m.path)
  let scImp := m.importActions.foldl (applyAction autoreg) sc0
  if m.importRaises then { st with scope := scImp }
  else
    match pass1 autoreg m.functions scImp [] Avail.fals with
    | Pass1Result.aborted sc => { st with scope := sc }
    | Pass1Result.ok sc cands avail =>
      let sc2 :=
        match avail with
        | Avail.fals => register_user_command autoreg sc cands PyTags.nonePy
        | Avail.list l => register_user_command autoreg sc l PyTags.nonePy
      let newCmds :=
        (cands.filter (fun n => decide (n ∈ sc2.allCmds))).map
          (fun n => (n, decide (n ∈ sc2.admin)))
      { scope := sc2,
        history := st.history ++ [sc2],
        dispatcher :=
          { commands := st.dispatcher.commands ++ newCmds,
            tags := st.dispatcher.tags ++ sc2.tagged } }

/-- `load_user_plugins(bot)` (lines 235-242) with the configured module
list abstracted to the modules themselves: load each in order. -/
def load_user_plugins (autoreg : AutoRegValue) (st : LoadState)
    (modules : List PyModule) : LoadState :=
  modules.foldl (load autoreg) st

/-! ## Lemmas about the tagged dict -/

lemma tagLookup_of_not_hasKey {d : TagDict} {k : String} (h : hasKey d k = false) :
    tagLookup d k = ∅ := by
  induction d with
  | nil => rfl
  | cons p rest ih =>
    obtain ⟨k', v'⟩ := p
    by_cases hk : k' = k
    · simp [hasKey, hk] at h
    · simp only [hasKey, hk, if_false] at h
      simpa [tagLookup, hk] using ih h

lemma tagLookup_append_single_self {d : TagDict} {k : String} {v : Finset TagSet}
    (h : hasKey d k = false) : tagLookup (d ++ [(k, v)]) k = v := by
  induction d with
  | nil => simp [tagLookup]
  | cons p rest ih =>
    obtain ⟨k', v'⟩ := p
    by_cases hk : k' = k
    · simp [hasKey, hk] at h
    · simp only [hasKey, hk, if_false] at h
      simpa [tagLookup, hk] using ih h

lemma tagLookup_append_single_other {d : TagDict} {k k' : String} {v : Finset TagSet}
    (h : k' ≠ k) : tagLookup (d ++ [(k, v)]) k' = tagLookup d k' := by
  have hne : ¬ k = k' := fun hc => h hc.symm
  induction d with
  | nil => simp [tagLookup, hne]
  | cons p rest ih =>
    obtain ⟨k0, v0⟩ := p
    by_cases h0 : k0 = k'
    · simp [tagLookup, h0]
    · simpa [tagLookup, h0] using ih

lemma hasKey_append_single_self (d : TagDict) (k : String) (v : Finset TagSet) :
    hasKey (d ++ [(k, v)]) k = true := by
  induction d with
  | nil => simp [hasKey]
  | cons p rest ih =>
    obtain ⟨k0, v0⟩ := p
    by_cases h0 : k0 = k
    · simp [hasKey, h0]
    · simpa [hasKey, h0] using ih

lemma tagLookup_insertDefault_self (d : TagDict) (k : String) :
    tagLookup (tagInsertDefault d k) k = tagLookup d k := by
  unfold tagInsertDefault
  by_cases h : hasKey d k
  · simp [h]
  · simp only [Bool.not_eq_true] at h
    simp only [h, Bool.false_eq_true, if_false]
    rw [tagLookup_append_single_self h, tagLookup_of_not_hasKey h]

lemma tagLookup_insertDefault_other {d : TagDict} {k k' : String} (h : k' ≠ k) :
    tagLookup (tagInsertDefault d k) k' = tagLookup d k' := by
  unfold tagInsertDefault
  by_cases hk : hasKey d k
  · simp [hk]
  · simp only [Bool.not_eq_true] at hk
    simp only [hk, Bool.false_eq_true, if_false]
    exact tagLookup_append_single_other h

lemma hasKey_insertDefault_self (d : TagDict) (k : String) :
    hasKey (tagInsertDefault d k) k = true := by
  unfold tagInsertDefault
  by_cases h : hasKey d k
  · simp [h]
  · simp only [Bool.not_eq_true] at h
    simp only [h, Bool.false_eq_true, if_false]
    exact hasKey_append_single_self d k _

lemma tagLookup_update_self {d : TagDict} {k : String} {v : Finset TagSet}
    (h : hasKey d k = true) : tagLookup (tagUpdate d k v) k = v := by
  induction d with
  | nil => simp [hasKey] at h
  | cons p rest ih =>
    obtain ⟨k', v'⟩ := p
    by_cases hk : k' = k
    · simp [tagUpdate, hk, tagLookup]
    · simp only [hasKey, hk, if_false] at h
      simpa [tagUpdate, hk, tagLookup] using ih h

lemma tagLookup_update_other {d : TagDict} {k k' : String} {v : Finset TagSet}
    (h : k' ≠ k) : tagLookup (tagUpdate d k v) k' = tagLookup d k' := by
  have hne : ¬ k = k' := fun hc => h hc.symm
  induction d with
  | nil => rfl
  | cons p rest ih =>
    obtain ⟨k0, v0⟩ := p
    simp only [tagUpdate]
    by_cases h0 : k0 = k
    · subst h0
      simp [tagLookup, hne, ih]
    · simp only [h0, if_false]
      by_cases h1 : k0 = k'
      · simp [tagLookup, h1]
      · simp [tagLookup, h1, ih]

lemma tagLookup_store_self (d : TagDict) (k : String) (S : Finset TagSet) :
    tagLookup (tagStore d k S) k
      = if tagLookup d k ⊂ S then tagLookup d k ∪ S else tagLookup d k := by
  unfold tagStore
  simp only [tagLookup_insertDefault_self]
  by_cases h : tagLookup d k ⊂ S
  · simp only [h, if_true]
    exact tagLookup_update_self (hasKey_insertDefault_self d k)
  · simp only [h, if_false]
    exact tagLookup_insertDefault_self d k

lemma tagLookup_store_other {d : TagDict} {k k' : String} {S : Finset TagSet}
    (h : k' ≠ k) : tagLookup (tagStore d k S) k' = tagLookup d k' := by
  unfold tagStore
  simp only [tagLookup_insertDefault_self]
  by_cases hc : tagLookup d k ⊂ S
  · simp only [hc, if_true]
    rw [tagLookup_update_other h, tagLookup_insertDefault_other h]
  · simp only [hc, if_false]
    exact tagLookup_insertDefault_other h

/-- The guarded strict-superset union of lines 95-97 is idempotent: storing
the same computed tag-sets a second time changes nothing. -/
lemma tagLookup_store_store (d : TagDict) (k : String) (S : Finset TagSet) :
    tagLookup (tagStore (tagStore d k S) k S) k = tagLookup (tagStore d k S) k := by
  rw [tagLookup_store_self, tagLookup_store_self]
  by_cases h : tagLookup d k ⊂ S
  · simp only [h, if_true]
    have hns : ¬ (tagLookup d k ∪ S ⊂ S) := fun hc =>
      (Finset.ssubset_def.mp hc).2 Finset.subset_union_right
    simp [hns]
  · simp [h]

lemma tagLookup_store_subset (d : TagDict) (k k' : String) (S : Finset TagSet) :
    tagLookup d k' ⊆ tagLookup (tagStore d k S) k' := by
  by_cases h : k' = k
  · subst h
    rw [tagLookup_store_self]
    by_cases hc : tagLookup d k' ⊂ S
    · simp only [hc, if_true]
      exact Finset.subset_union_left
    · simp [hc]
  · rw [tagLookup_store_other h]

lemma registerTagsLoop_mono (autoreg : AutoRegValue) :
    ∀ (names : List String) (d : TagDict) (cur : Option (List TagItem)) (k : String),
      tagLookup d k ⊆ tagLookup (tracker.registerTagsLoop autoreg names d cur).1 k := by
  intro names
  induction names with
  | nil => intro d cur k; simp [tracker.registerTagsLoop]
  | cons m rest ih =>
    intro d cur k
    simp only [tracker.registerTagsLoop]
    exact (tagLookup_store_subset d m k _).trans (ih _ _ k)

lemma registerTagsLoop_other (autoreg : AutoRegValue) :
    ∀ (names : List String) (d : TagDict) (cur : Option (List TagItem)) (k : String),
      k ∉ names →
      tagLookup (tracker.registerTagsLoop autoreg names d cur).1 k = tagLookup d k := by
  intro names
  induction names with
  | nil => intro d cur k _; rfl
  | cons m rest ih =>
    intro d cur k hk
    simp only [List.mem_cons, not_or] at hk
    simp only [tracker.registerTagsLoop]
    rw [ih _ _ k hk.2, tagLookup_store_other hk.1]

lemma tagsetsOf_append (l1 l2 : List TagItem) :
    tagsetsOf (l1 ++ l2) = tagsetsOf l1 ∪ tagsetsOf l2 := by
  simp [tagsetsOf]

/-- What one `register_tags` call with a single name and a truthy `tags`
argument computes: one `tagStore` with the tag-sets of the normalized items,
extended by the synthesized tag when auto-registration is enabled; a list
argument is returned mutated to the grown `base` list. -/
lemma register_tags_single_truthy (autoreg : AutoRegValue) (d : TagDict)
    (n : String) (tags : PyTags) (hT : pyTruthy tags = true) :
    tracker.register_tags autoreg d [n] tags
      = (tagStore d n (tagsetsOf (if pyTruthyAutoReg autoreg
            then normItems tags ++ [TagItem.single (synthTag autoreg n)]
            else normItems tags)),
         match tags with
         | PyTags.list _ => PyTags.list (if pyTruthyAutoReg autoreg
            then normItems tags ++ [TagItem.single (synthTag autoreg n)]
            else normItems tags)
         | _ => tags) := by
  unfold tracker.register_tags
  rw [hT]
  simp only [if_true]
  rw [tracker.registerTagsLoop, tracker.registerTagsLoop]
  simp only [Option.map_some', Option.getD_some]
  cases tags <;> rfl

/-- What one `register_tags` call with a single name, a falsy `tags` argument
and auto-registration enabled computes. -/
lemma register_tags_single_falsy_auto (autoreg : AutoRegValue) (d : TagDict)
    (n : String) (tags : PyTags) (hT : pyTruthy tags = false)
    (hA : pyTruthyAutoReg autoreg = true) :
    tracker.register_tags autoreg d [n] tags
      = (tagStore d n (tagsetsOf [TagItem.single (synthTag autoreg n)]), tags) := by
  unfold tracker.register_tags
  rw [hT, hA]
  simp only [Bool.false_eq_true, if_false, Bool.not_true]
  rw [tracker.registerTagsLoop, tracker.registerTagsLoop]
  simp [hA]

/-- A falsy `tags` argument with auto-registration disabled is the early
return of lines 74-75. -/
lemma register_tags_single_falsy_noauto (autoreg : AutoRegValue) (d : TagDict)
    (names : List String) (tags : PyTags) (hT : pyTruthy tags = false)
    (hA : pyTruthyAutoReg autoreg = false) :
    tracker.register_tags autoreg d names tags = (d, tags) := by
  unfold tracker.register_tags
  rw [hT, hA]
  simp

lemma register_tags_mono (autoreg : AutoRegValue) (d : TagDict)
    (names : List String) (t : PyTags) (k : String) :
    tagLookup d k ⊆ tagLookup (tracker.register_tags autoreg d names t).1 k := by
  unfold tracker.register_tags
  by_cases hT : pyTruthy t
  · simp only [hT, if_true]
    exact registerTagsLoop_mono autoreg names d _ k
  · simp only [hT, Bool.false_eq_true, if_false]
    by_cases hA : pyTruthyAutoReg autoreg
    · simp only [hA, Bool.not_true, Bool.false_eq_true, if_false]
      exact registerTagsLoop_mono autoreg names d none k
    · simp only [Bool.not_eq_true] at hA
      simp [hA]

/-- Claim C1: for a single command name, calling `register_tags` twice in
succession with the same name and the same tags - whether the second call
receives the same (by then possibly mutated) list object or a value equal to
the original argument - yields exactly the same final collection of tag-sets
for that name as calling it once; and no call ever removes a previously
stored tag-set from any name's collection. -/
theorem register_tags_idempotent_and_monotonic
    (autoreg : AutoRegValue) (d : TagDict) (n : String) (tags : PyTags) :
    (tagLookup (tracker.register_tags autoreg
        (tracker.register_tags autoreg d [n] tags).1 [n]
        (tracker.register_tags autoreg d [n] tags).2).1 n
      = tagLookup (tracker.register_tags autoreg d [n] tags).1 n)
    ∧ (tagLookup (tracker.register_tags autoreg
        (tracker.register_tags autoreg d [n] tags).1 [n] tags).1 n
      = tagLookup (tracker.register_tags autoreg d [n] tags).1 n)
    ∧ ∀ (names : List String) (t : PyTags) (k : String),
        tagLookup d k ⊆ tagLookup (tracker.register_tags autoreg d names t).1 k := by
  refine ⟨?_, ?_, fun names t k => register_tags_mono autoreg d names t k⟩
  · -- second call on the same (possibly mutated) tags object
    by_cases hT : pyTruthy tags
    · rw [register_tags_single_truthy autoreg d n tags hT]
      cases tags with
      | nonePy => simp [pyTruthy] at hT
      | str s =>
        dsimp only
        rw [register_tags_single_truthy autoreg _ n _ hT]
        dsimp only
        exact tagLookup_store_store d n _
      | list items =>
        dsimp only
        simp only [normItems]
        by_cases hA : pyTruthyAutoReg autoreg
        · simp only [hA, if_true]
          have hT2 : pyTruthy (PyTags.list (items
              ++ [TagItem.single (synthTag autoreg n)])) = true := by
            cases items <;> simp [pyTruthy]
          rw [register_tags_single_truthy autoreg _ n _ hT2]
          dsimp only
          simp only [hA, if_true, normItems]
          have hS : tagsetsOf ((items ++ [TagItem.single (synthTag autoreg n)])
                ++ [TagItem.single (synthTag autoreg n)])
              = tagsetsOf (items ++ [TagItem.single (synthTag autoreg n)]) := by
            rw [tagsetsOf_append, tagsetsOf_append,
              Finset.union_assoc, Finset.union_self]
          rw [hS]
          exact tagLookup_store_store d n _
        · simp only [Bool.not_eq_true] at hA
          simp only [hA, Bool.false_eq_true, if_false]
          rw [register_tags_single_truthy autoreg _ n _ hT]
          dsimp only
          simp only [hA, Bool.false_eq_true, if_false, normItems]
          exact tagLookup_store_store d n _
    · simp only [Bool.not_eq_true] at hT
      by_cases hA : pyTruthyAutoReg autoreg
      · rw [register_tags_single_falsy_auto autoreg d n tags hT hA]
        dsimp only
        rw [register_tags_single_falsy_auto autoreg _ n tags hT hA]
        dsimp only
        exact tagLookup_store_store d n _
      · simp only [Bool.not_eq_true] at hA
        rw [register_tags_single_falsy_noauto autoreg d [n] tags hT hA]
        dsimp only
        rw [register_tags_single_falsy_noauto autoreg d [n] tags hT hA]
  · -- second call on a fresh value equal to the original argument
    by_cases hT : pyTruthy tags
    · rw [register_tags_single_truthy autoreg d n tags hT]
      dsimp only
      rw [register_tags_single_truthy autoreg _ n tags hT]
      dsimp only
      exact tagLookup_store_store d n _
    · simp only [Bool.not_eq_true] at hT
      by_cases hA : pyTruthyAutoReg autoreg
      · rw [register_tags_single_falsy_auto autoreg d n tags hT hA]
        dsimp only
        rw [register_tags_single_falsy_auto autoreg _ n tags hT hA]
        dsimp only
        exact tagLookup_store_store d n _
      · simp only [Bool.not_eq_true] at hA
        rw [register_tags_single_falsy_noauto autoreg d [n] tags hT hA]
        dsimp only
        rw [register_tags_single_falsy_noauto autoreg d [n] tags hT hA]

lemma tagsetsOf_singleton (it : TagItem) : tagsetsOf [it] = {itemSet it} := by
  simp [tagsetsOf]

lemma itemSet_mem_tagsetsOf {it : TagItem} {l : List TagItem} (h : it ∈ l) :
    itemSet it ∈ tagsetsOf l := by
  simp only [tagsetsOf, List.mem_toFinset, List.mem_map]
  exact ⟨it, h, rfl⟩

/-- Claim C2 counterexample: with auto-registration enabled and the explicit
tags `["foo"]` for the single command `cmd`, the stored collection is
`{{"foo"}, {"execute-cmd"}}` - the supplied tag-set `{"foo"}` does not
contain the synthesized tag, so the synthesized tag is not appended into
every supplied tag-set. -/
theorem register_tags_synth_in_every_tagset_cx :
    ¬ (∀ ts ∈ tagLookup (tracker.register_tags (AutoRegValue.pybool true) []
        ["cmd"] (PyTags.list [TagItem.single "foo"])).1 "cmd",
        "execute-cmd" ∈ ts) := by decide

/-- Claim C2 amended: when `register_tags` is called with an explicit
non-empty tags list and auto-registration is enabled, the synthesized tag is
appended to the tags list as one additional element, so for a name with no
previously stored tag-sets the final collection is exactly the supplied
tag-sets - each stored unchanged - plus the synthesized tag as an
independent singleton tag-set (it is not appended into each supplied
tag-set). -/
theorem register_tags_synth_independent_singleton
    (autoreg : AutoRegValue) (d : TagDict) (n : String) (items : List TagItem)
    (hA : pyTruthyAutoReg autoreg = true) (hI : items ≠ [])
    (hF : tagLookup d n = ∅) :
    tagLookup (tracker.register_tags autoreg d [n] (PyTags.list items)).1 n
      = tagsetsOf items ∪ {({synthTag autoreg n} : Finset String)}
    ∧ ({synthTag autoreg n} : Finset String)
        ∈ tagLookup (tracker.register_tags autoreg d [n] (PyTags.list items)).1 n
    ∧ ∀ it ∈ items,
        itemSet it ∈ tagLookup (tracker.register_tags autoreg d [n] (PyTags.list items)).1 n := by
  have hT : pyTruthy (PyTags.list items) = true := by
    cases items with
    | nil => exact absurd rfl hI
    | cons a l => simp [pyTruthy]
  have hmain : tagLookup (tracker.register_tags autoreg d [n] (PyTags.list items)).1 n
      = tagsetsOf items ∪ {({synthTag autoreg n} : Finset String)} := by
    rw [register_tags_single_truthy autoreg d n _ hT]
    dsimp only
    simp only [hA, if_true, normItems]
    rw [tagLookup_store_self, hF]
    have hSS : (∅ : Finset TagSet)
        ⊂ tagsetsOf (items ++ [TagItem.single (synthTag autoreg n)]) := by
      refine (Finset.ssubset_iff_of_subset (Finset.empty_subset _)).mpr ?_
      refine ⟨itemSet (TagItem.single (synthTag autoreg n)), ?_, by simp⟩
      exact itemSet_mem_tagsetsOf (by simp)
    rw [if_pos hSS, Finset.empty_union, tagsetsOf_append, tagsetsOf_singleton]
    rfl
  refine ⟨hmain, ?_, ?_⟩
  · rw [hmain]
    simp
  · intro it hit
    rw [hmain]
    exact Finset.mem_union_left _ (itemSet_mem_tagsetsOf hit)

/-- Witness for the amended C2 theorem at a concrete input. -/
theorem register_tags_synth_independent_singleton_witness :
    pyTruthyAutoReg (AutoRegValue.pybool true) = true
    ∧ ([TagItem.single "foo"] : List TagItem) ≠ []
    ∧ tagLookup ([] : TagDict) "cmd" = ∅
    ∧ tagLookup (tracker.register_tags (AutoRegValue.pybool true) [] ["cmd"]
        (PyTags.list [TagItem.single "foo"])).1 "cmd"
      = tagsetsOf [TagItem.single "foo"]
          ∪ {({synthTag (AutoRegValue.pybool true) "cmd"} : Finset String)} :=
  ⟨by decide, by decide, rfl,
   (register_tags_synth_independent_singleton (AutoRegValue.pybool true) [] "cmd"
      [TagItem.single "foo"] (by decide) (by decide) rfl).1⟩

lemma registerTagsLoop_chain (autoreg : AutoRegValue) (hA : pyTruthyAutoReg autoreg = true) :
    ∀ (names : List String) (d : TagDict) (base : List TagItem),
      base ≠ [] →
      (∀ m ∈ names, tagLookup d m = ∅) →
      names.Nodup →
      (tracker.registerTagsLoop autoreg names d (some base)).2
        = some (base ++ names.map (fun m => TagItem.single (synthTag autoreg m)))
      ∧ ∀ (j : Nat) (hj : j < names.length),
          tagLookup (tracker.registerTagsLoop autoreg names d (some base)).1
              (names.get ⟨j, hj⟩)
            = tagsetsOf (base ++ (names.take (j+1)).map
                (fun m => TagItem.single (synthTag autoreg m))) := by
  intro names
  induction names with
  | nil =>
    intro d base hB hF hN
    constructor
    · simp [tracker.registerTagsLoop]
    · intro j hj
      simp at hj
  | cons m rest ih =>
    intro d base hB hF hN
    have hFm : tagLookup d m = ∅ := hF m (List.mem_cons_self m rest)
    have hNm : m ∉ rest := (List.nodup_cons.mp hN).1
    have hNrest : rest.Nodup := (List.nodup_cons.mp hN).2
    have hstep : tracker.registerTagsLoop autoreg (m :: rest) d (some base)
        = tracker.registerTagsLoop autoreg rest
            (tagStore d m (tagsetsOf (base ++ [TagItem.single (synthTag autoreg m)])))
            (some (base ++ [TagItem.single (synthTag autoreg m)])) := by
      rw [tracker.registerTagsLoop]
      simp only [Option.getD_some, Option.map_some', hA, if_true]
    have hB1 : base ++ [TagItem.single (synthTag autoreg m)] ≠ [] := by simp
    have hF1 : ∀ x ∈ rest,
        tagLookup (tagStore d m (tagsetsOf (base ++ [TagItem.single (synthTag autoreg m)]))) x
          = ∅ := by
      intro x hx
      have hxm : x ≠ m := fun hxm => hNm (hxm ▸ hx)
      rw [tagLookup_store_other hxm]
      exact hF x (List.mem_cons_of_mem m hx)
    obtain ⟨ih2, ihlook⟩ := ih _ _ hB1 hF1 hNrest
    constructor
    · rw [hstep, ih2]
      simp
    · intro j hj
      cases j with
      | zero =>
        rw [hstep]
        have hget : (m :: rest).get ⟨0, hj⟩ = m := rfl
        rw [hget]
        rw [registerTagsLoop_other autoreg rest _ _ m hNm]
        rw [tagLookup_store_self, hFm]
        have hSS : (∅ : Finset TagSet)
            ⊂ tagsetsOf (base ++ [TagItem.single (synthTag autoreg m)]) := by
          refine (Finset.ssubset_iff_of_subset (Finset.empty_subset _)).mpr ?_
          refine ⟨itemSet (TagItem.single (synthTag autoreg m)), ?_, by simp⟩
          exact itemSet_mem_tagsetsOf (by simp)
        rw [if_pos hSS, Finset.empty_union]
        simp
      | succ j =>
        rw [hstep]
        have hj' : j < rest.length := by simpa using Nat.lt_of_succ_lt_succ hj
        have hget : (m :: rest).get ⟨j + 1, hj⟩ = rest.get ⟨j, hj'⟩ := rfl
        rw [hget, ihlook j hj']
        simp

/-- Claim C10: with an explicit non-empty tags list, auto-registration
enabled and several (distinct, previously untagged) command names, the
supplied tags list is mutated in place across the per-name loop - after the
call it has every name's synthesized tag appended - and each name's stored
collection consists of the supplied tag-sets plus the synthesized tags of
itself and of every earlier name in the same call, each as a singleton
tag-set. -/
theorem register_tags_inplace_mutation_leak
    (autoreg : AutoRegValue) (d : TagDict) (items : List TagItem)
    (names : List String)
    (hA : pyTruthyAutoReg autoreg = true) (hI : items ≠ [])
    (hF : ∀ m ∈ names, tagLookup d m = ∅) (hN : names.Nodup) :
    (tracker.register_tags autoreg d names (PyTags.list items)).2
      = PyTags.list (items ++ names.map (fun m => TagItem.single (synthTag autoreg m)))
    ∧ (∀ (j : Nat) (hj : j < names.length),
        tagLookup (tracker.register_tags autoreg d names (PyTags.list items)).1
            (names.get ⟨j, hj⟩)
          = tagsetsOf (items ++ (names.take (j+1)).map
              (fun m => TagItem.single (synthTag autoreg m))))
    ∧ ∀ (i j : Nat) (hij : i ≤ j) (hj : j < names.length),
        ({synthTag autoreg (names.get ⟨i, Nat.lt_of_le_of_lt hij hj⟩)} : Finset String)
          ∈ tagLookup (tracker.register_tags autoreg d names (PyTags.list items)).1
              (names.get ⟨j, hj⟩) := by
  have hT : pyTruthy (PyTags.list items) = true := by
    cases items with
    | nil => exact absurd rfl hI
    | cons a l => simp [pyTruthy]
  have hred : tracker.register_tags autoreg d names (PyTags.list items)
      = ((tracker.registerTagsLoop autoreg names d (some items)).1,
         PyTags.list ((tracker.registerTagsLoop autoreg names d (some items)).2.getD items)) := by
    unfold tracker.register_tags
    rw [hT]
    simp only [if_true, normItems]
  obtain ⟨h2, hlook⟩ := registerTagsLoop_chain autoreg hA names d items hI hF hN
  have hlook' : ∀ (j : Nat) (hj : j < names.length),
      tagLookup (tracker.register_tags autoreg d names (PyTags.list items)).1
          (names.get ⟨j, hj⟩)
        = tagsetsOf (items ++ (names.take (j+1)).map
            (fun m => TagItem.single (synthTag autoreg m))) := by
    intro j hj
    rw [hred]
    exact hlook j hj
  refine ⟨?_, hlook', ?_⟩
  · rw [hred]
    dsimp only
    rw [h2]
    rfl
  · intro i j hij hj
    have hi : i < names.length := Nat.lt_of_le_of_lt hij hj
    rw [hlook' j hj]
    have hlen : i < (names.take (j+1)).length := by
      simp only [List.length_take]
      exact lt_min (Nat.lt_succ_of_le hij) hi
    have hmem0 : (names.take (j+1)).get ⟨i, hlen⟩ ∈ names.take (j+1) :=
      List.get_mem _ _ hlen
    have heq : (names.take (j+1)).get ⟨i, hlen⟩ = names.get ⟨i, hi⟩ := by
      simp [List.get_eq_getElem, List.getElem_take]
    rw [heq] at hmem0
    have : TagItem.single (synthTag autoreg (names.get ⟨i, hi⟩))
        ∈ items ++ (names.take (j+1)).map
            (fun m => TagItem.single (synthTag autoreg m)) := by
      refine List.mem_append_right _ ?_
      exact List.mem_map_of_mem _ hmem0
    exact itemSet_mem_tagsetsOf this

/-- Witness for the C10 theorem at a concrete input: after
`register_tags(["alpha", "beta"], ["t"])` the caller's list has become
`["t", "execute-alpha", "execute-beta"]`. -/
theorem register_tags_inplace_mutation_leak_witness :
    pyTruthyAutoReg (AutoRegValue.pybool true) = true
    ∧ ([TagItem.single "t"] : List TagItem) ≠ []
    ∧ (∀ m ∈ (["alpha", "beta"] : List String), tagLookup ([] : TagDict) m = ∅)
    ∧ (["alpha", "beta"] : List String).Nodup
    ∧ (tracker.register_tags (AutoRegValue.pybool true) [] ["alpha", "beta"]
        (PyTags.list [TagItem.single "t"])).2
      = PyTags.list ([TagItem.single "t"]
          ++ (["alpha", "beta"] : List String).map
              (fun m => TagItem.single (synthTag (AutoRegValue.pybool true) m))) :=
  ⟨by decide, by decide, by decide, by decide,
   (register_tags_inplace_mutation_leak (AutoRegValue.pybool true) [] [TagItem.single "t"]
      ["alpha", "beta"] (by decide) (by decide) (by decide) (by decide)).1⟩

/-- Claim C5: entry-point signature resolution precedence - zero parameters
are always called with no arguments; exactly one parameter named `bot` is
called with the host instance; any other signature is first attempted with
the two legacy arguments and falls back to the one-argument legacy call
exactly when the two-argument call raises a type/arity error. -/
theorem resolveCall_precedence (params : List String) (b : Bool) :
    (params = [] → resolveCall params b = CallShape.noArgs)
    ∧ (params = ["bot"] → resolveCall params b = CallShape.botArg)
    ∧ (params ≠ [] → params ≠ ["bot"] →
        resolveCall params b
          = if b then CallShape.legacyOne else CallShape.legacyTwo) := by
  refine ⟨fun h => by subst h; rfl, fun h => by subst h; rfl, fun h1 h2 => ?_⟩
  match params with
  | [] => exact absurd rfl h1
  | [p] =>
    have hp : ¬ (p = "bot") := fun hb => h2 (by rw [hb])
    simp [resolveCall, hp]
  | p :: q :: rest =>
    simp [resolveCall]

/-- Witness for C5 at concrete signatures. -/
theorem resolveCall_precedence_witness :
    resolveCall [] true = CallShape.noArgs
    ∧ resolveCall ["bot"] true = CallShape.botArg
    ∧ resolveCall ["handlers", "bot"] false = CallShape.legacyTwo
    ∧ resolveCall ["handlers", "bot"] true = CallShape.legacyOne := by
  refine ⟨(resolveCall_precedence [] true).1 rfl,
    (resolveCall_precedence ["bot"] true).2.1 rfl, ?_, ?_⟩
  · have h := (resolveCall_precedence ["handlers", "bot"] false).2.2
      (by decide) (by decide)
    simpa using h
  · have h := (resolveCall_precedence ["handlers", "bot"] true).2.2
      (by decide) (by decide)
    simpa using h

/-- Claim C6: a configured fragment matching more than one remaining
discovered plugin is recorded as ambiguous and none of its matches is
included; a fragment with exactly one match has that match included; in
particular `{"a.b", "c.b", "d"}` with configured `["b"]` is ambiguous with
nothing included, while `["d"]` includes exactly `"d"`. -/
theorem selector_ambiguous_and_unique (st : SelectState) (c : String) :
    (1 < (selMatches st c).length →
      (selectOne st c).included = st.included
      ∧ (selectOne st c).ambiguous = st.ambiguous ++ [c])
    ∧ ((selMatches st c).length = 1 →
      (selectOne st c).included = st.included ++ [(selMatches st c).headD ""])
    ∧ get_configured_plugins ["a.b", "c.b", "d"] (some ["b"]) = []
    ∧ (["b"].foldl selectOne ⟨[], ["a.b", "c.b", "d"], [], []⟩).ambiguous = ["b"]
    ∧ get_configured_plugins ["a.b", "c.b", "d"] (some ["d"]) = ["d"] := by
  refine ⟨fun h => ?_, fun h => ?_, by decide, by decide, by decide⟩
  · have h0 : ((selMatches st c).length == 0) = false := by
      simp only [beq_eq_false_iff_ne]
      omega
    have h1 : ((selMatches st c).length == 1) = false := by
      simp only [beq_eq_false_iff_ne]
      omega
    rw [selectOne]
    simp [h0, h1]
  · have h0 : ((selMatches st c).length == 0) = false := by
      simp only [beq_eq_false_iff_ne]
      omega
    have h1 : ((selMatches st c).length == 1) = true := by
      simp only [beq_iff_eq]
      omega
    rw [selectOne]
    simp only [h0, h1, Bool.false_eq_true, if_false, if_true]

/-- Witness for C6's conditional parts at the concrete discovered set. -/
theorem selector_ambiguous_and_unique_witness :
    (selectOne ⟨[], ["a.b", "c.b", "d"], [], []⟩ "b").included = []
    ∧ (selectOne ⟨[], ["a.b", "c.b", "d"], [], []⟩ "b").ambiguous = ["b"]
    ∧ (selectOne ⟨[], ["a.b", "c.b", "d"], [], []⟩ "d").included = ["d"] := by
  have hamb := (selector_ambiguous_and_unique ⟨[], ["a.b", "c.b", "d"], [], []⟩ "b").1
    (by decide)
  have huniq := (selector_ambiguous_and_unique ⟨[], ["a.b", "c.b", "d"], [], []⟩ "d").2.1
    (by decide)
  exact ⟨by simpa using hamb.1, by simpa using hamb.2, by simpa using huniq⟩

/-- Claim C7: fragments are processed in order and a uniquely matched plugin
is removed from the remaining pool, so a later fragment cannot claim it;
with discovered `{"x.y"}` and configured `["y", "y"]` the first `"y"` claims
`"x.y"` and the second is recorded as not-found. -/
theorem selector_order_sensitivity (st : SelectState) (c m : String)
    (h : selMatches st c = [m]) :
    (selectOne st c).included = st.included ++ [m]
    ∧ (selectOne st c).excluded = st.excluded.erase m
    ∧ ["y", "y"].foldl selectOne ⟨[], ["x.y"], [], []⟩
        = ⟨["x.y"], [], [], ["y"]⟩ := by
  rw [selectOne, h]
  refine ⟨rfl, rfl, by decide⟩

/-- Witness for C7's conditional part at the concrete pool. -/
theorem selector_order_sensitivity_witness :
    (selectOne ⟨[], ["x.y"], [], []⟩ "y").included = ["x.y"]
    ∧ (selectOne ⟨[], ["x.y"], [], []⟩ "y").excluded = [] := by
  have h := selector_order_sensitivity ⟨[], ["x.y"], [], []⟩ "y" "x.y" (by decide)
  exact ⟨by simpa using h.1, by simpa using h.2.1⟩

/-- Claim C8 counterexample: registering a handler through the public
module-level `register_handler` does not append it to the tracking scope's
handler list (the scope's list stays empty), so the claim that every such
registration is recorded in the scope fails at this input. -/
theorem register_handler_scope_cx :
    ¬ ((register_handler ⟨tracker.reset, []⟩ 7 "message" 50).scope.handlers
        = [(7, "message", 50)]) := by decide

/-- Claim C8 amended: a handler registered through the public
`register_handler` helper is forwarded directly to the host's handler
registry as an unchanged `(callable, event-type, priority)` entry, and the
tracking scope is not touched; the tracker's own `register_handler` method
is the one that appends to the scope's handler list, but the public helper
bypasses it. -/
theorem register_handler_forwards_directly (env : TrackingEnv) (f : Nat)
    (ty : String) (pr : Nat) (sc : Scope) :
    (register_handler env f ty pr).botHandlers = env.botHandlers ++ [(f, ty, pr)]
    ∧ (register_handler env f ty pr).scope = env.scope
    ∧ (tracker.register_handler sc f ty pr).handlers = sc.handlers ++ [(f, ty, pr)] :=
  ⟨rfl, rfl, rfl⟩

/-- Claim C9: the module lister excludes a directory entry without an index
module even when it contains valid source files, skips every entry whose
name starts with `.` or `_`, and lists a qualifying directory's children
with dotted names `parentName.childName`. -/
theorem lister_rules :
    (∀ (name : String) (children : List FsNode) (rest : List FsNode)
        (msw : Option String), hasIndexModule children = false →
      retrieve_all_plugins (FsNode.dir name children :: rest) msw
        = retrieve_all_plugins rest msw)
    ∧ (∀ (node : FsNode) (rest : List FsNode) (msw : Option String),
        skipName (nodeName node) = true →
      retrieve_all_plugins (node :: rest) msw = retrieve_all_plugins rest msw)
    ∧ (∀ (name : String) (children : List FsNode) (rest : List FsNode)
        (msw : Option String),
        skipName name = false → skipPrefix msw name = false →
        hasIndexModule children = true →
      retrieve_all_plugins (FsNode.dir name children :: rest) msw
        = splitextBase name ::
            ((retrieve_all_plugins children (some name)).map
                (fun sm => splitextBase name ++ "." ++ sm)
              ++ retrieve_all_plugins rest msw)) := by
  refine ⟨fun name children rest msw h => ?_, fun node rest msw h => ?_,
    fun name children rest msw h1 h2 h3 => ?_⟩
  · rw [retrieve_all_plugins]
    simp [h]
  · cases node with
    | file n =>
      rw [retrieve_all_plugins]
      simp only [nodeName] at h
      simp [h]
    | dir n children =>
      rw [retrieve_all_plugins]
      simp only [nodeName] at h
      simp [h]
  · rw [retrieve_all_plugins]
    simp [h1, h2, h3]

/-- Witness for C9 at concrete directory trees. -/
theorem lister_rules_witness :
    retrieve_all_plugins [FsNode.dir "group" [FsNode.file "stuff.py"]] none = []
    ∧ retrieve_all_plugins
        [FsNode.file "_hidden.py", FsNode.file ".secret.py"] none = []
    ∧ retrieve_all_plugins
        [FsNode.dir "pack" [FsNode.file "__init__.py", FsNode.file "pack_extra.py"]]
        none
      = ["pack", "pack.pack_extra"] := by
  refine ⟨?_, ?_, ?_⟩
  · have h := lister_rules.1 "group" [FsNode.file "stuff.py"] [] none (by decide)
    exact h.trans (by simp [retrieve_all_plugins])
  · have h1 := lister_rules.2.1 (FsNode.file "_hidden.py") [FsNode.file ".secret.py"]
      none (by decide)
    have h2 := lister_rules.2.1 (FsNode.file ".secret.py") [] none (by decide)
    rw [h1, h2]
    simp [retrieve_all_plugins]
  · have h := lister_rules.2.2 "pack"
      [FsNode.file "__init__.py", FsNode.file "pack_extra.py"] [] none
      (by decide) (by decide) (by decide)
    refine h.trans ?_
    simp only [retrieve_all_plugins]
    decide

/-- `load` opens a fresh tracking scope first (`tracking.start`), so its
result does not depend on the scope the loader state carried in. -/
lemma load_scope_irrel (autoreg : AutoRegValue) (m : PyModule)
    (s1 s2 : LoadState) (hh : s1.history = s2.history)
    (hd : s1.dispatcher = s2.dispatcher) :
    load autoreg s1 m = load autoreg s2 m := by
  cases s1 with
  | mk a1 h1 d1 =>
    cases s2 with
    | mk a2 h2 d2 =>
      dsimp at hh hd
      subst hh
      subst hd
      rw [load, load]

/-- Loading a module list from states that agree on history and dispatcher
yields the same history and dispatcher. -/
lemma load_user_plugins_scope_irrel (autoreg : AutoRegValue) :
    ∀ (modules : List PyModule) (s1 s2 : LoadState),
      s1.history = s2.history → s1.dispatcher = s2.dispatcher →
      (load_user_plugins autoreg s1 modules).history
          = (load_user_plugins autoreg s2 modules).history
      ∧ (load_user_plugins autoreg s1 modules).dispatcher
          = (load_user_plugins autoreg s2 modules).dispatcher := by
  intro modules
  induction modules with
  | nil => intro s1 s2 hh hd; exact ⟨hh, hd⟩
  | cons m rest ih =>
    intro s1 s2 hh hd
    have h1 : load_user_plugins autoreg s1 (m :: rest)
        = load_user_plugins autoreg (load autoreg s1 m) rest := rfl
    have h2 : load_user_plugins autoreg s2 (m :: rest)
        = load_user_plugins autoreg (load autoreg s2 m) rest := rfl
    rw [h1, h2, load_scope_irrel autoreg m s1 s2 hh hd]
    exact ih _ _ rfl rfl

/-- Claim C3: when a plugin's initialization entry point raises, the scope
is never committed - the external dispatcher receives neither command
registrations nor the end-of-load tag flush for that plugin and the scope is
not archived - and loading the remaining configured plugins proceeds exactly
as if the failing plugin had not been in the list. -/
theorem load_init_exception_skips_commit
    (autoreg : AutoRegValue) (st : LoadState) (m : PyModule)
    (hImp : m.importRaises = false)
    (hAb : (pass1 autoreg m.functions
        (m.importActions.foldl (applyAction autoreg)
          (tracker.start (moduleNameOf m.path, m.path))) [] Avail.fals).isAborted
      = true)
    (rest : List PyModule) :
    (load autoreg st m).dispatcher = st.dispatcher
    ∧ (load autoreg st m).history = st.history
    ∧ (load_user_plugins autoreg st (m :: rest)).dispatcher
        = (load_user_plugins autoreg st rest).dispatcher
    ∧ (load_user_plugins autoreg st (m :: rest)).history
        = (load_user_plugins autoreg st rest).history := by
  have hload : (load autoreg st m).dispatcher = st.dispatcher
      ∧ (load autoreg st m).history = st.history := by
    rw [load]
    cases hp : pass1 autoreg m.functions
        (m.importActions.foldl (applyAction autoreg)
          (tracker.start (moduleNameOf m.path, m.path))) [] Avail.fals with
    | ok sc cands avail =>
      rw [hp] at hAb
      simp [Pass1Result.isAborted] at hAb
    | aborted sc =>
      simp [hImp, hp]
  refine ⟨hload.1, hload.2, ?_, ?_⟩
  · have hstep : load_user_plugins autoreg st (m :: rest)
        = load_user_plugins autoreg (load autoreg st m) rest := rfl
    rw [hstep]
    exact (load_user_plugins_scope_irrel autoreg rest (load autoreg st m) st
      hload.2 hload.1).2
  · have hstep : load_user_plugins autoreg st (m :: rest)
        = load_user_plugins autoreg (load autoreg st m) rest := rfl
    rw [hstep]
    exact (load_user_plugins_scope_irrel autoreg rest (load autoreg st m) st
      hload.2 hload.1).1

/-- A plugin whose entry point raises after a declarative registration. -/
def badPlugin : PyModule :=
  { path := "plugins.bad", importRaises := false,
    importActions := [RegAction.userCmd ["ghost"] PyTags.nonePy],
    functions := [{ name := "_initialise", params := [], raisesOnTwoArgs := false,
                    actions := [], outcome := InitOutcome.raises }] }

/-- A plugin with one public command and no entry point. -/
def goodPlugin : PyModule :=
  { path := "plugins.good", importRaises := false, importActions := [],
    functions := [{ name := "hello", params := ["bot", "event"],
                    raisesOnTwoArgs := false, actions := [],
                    outcome := InitOutcome.returns PyRet.other }] }

/-- The loader's state before any plugin is loaded. -/
def initState : LoadState :=
  { scope := tracker.reset, history := [],
    dispatcher := { commands := [], tags := [] } }

/-- Witness for C3: the failing plugin contributes nothing to the dispatcher
and the following plugin still loads. -/
theorem load_init_exception_skips_commit_witness :
    badPlugin.importRaises = false
    ∧ (pass1 (AutoRegValue.pybool true) badPlugin.functions
        (badPlugin.importActions.foldl (applyAction (AutoRegValue.pybool true))
          (tracker.start (moduleNameOf badPlugin.path, badPlugin.path))) []
        Avail.fals).isAborted = true
    ∧ (load_user_plugins (AutoRegValue.pybool true) initState
        [badPlugin, goodPlugin]).dispatcher
      = (load_user_plugins (AutoRegValue.pybool true) initState
          [goodPlugin]).dispatcher
    ∧ (load_user_plugins (AutoRegValue.pybool true) initState
        [goodPlugin]).dispatcher.commands = [("hello", false)] := by
  refine ⟨rfl, by decide, ?_, by decide⟩
  exact (load_init_exception_skips_commit (AutoRegValue.pybool true) initState
    badPlugin rfl (by decide) [goodPlugin]).2.2.1

/-- Registering an empty name list is a no-op on the scope: the user set is
unioned with nothing and the tag loop runs zero times. -/
lemma register_user_command_nil (autoreg : AutoRegValue) (sc : Scope) :
    register_user_command autoreg sc [] PyTags.nonePy = sc := by
  rw [register_user_command, tracker.register_command]
  rw [tracker.register_tags]
  cases sc with
  | mk md ad us tg hd sh =>
    simp [pyTruthy]
    by_cases hA : pyTruthyAutoReg autoreg
    · simp [hA, tracker.registerTagsLoop]
    · simp only [Bool.not_eq_true] at hA
      simp [hA]

/-- Claim C4: when the initialization entry point's captured return value is
the empty list, the entry-point-return handling registers zero user
commands - the scope leaves `load` exactly as pass 1 produced it, its user
set unchanged - even when public non-private callables were collected as
candidates. -/
theorem load_explicit_empty_registers_none
    (autoreg : AutoRegValue) (st : LoadState) (m : PyModule)
    (hImp : m.importRaises = false)
    (hAv : (pass1 autoreg m.functions
        (m.importActions.foldl (applyAction autoreg)
          (tracker.start (moduleNameOf m.path, m.path))) [] Avail.fals).availOf
      = some (Avail.list [])) :
    (load autoreg st m).scope
      = (pass1 autoreg m.functions
          (m.importActions.foldl (applyAction autoreg)
            (tracker.start (moduleNameOf m.path, m.path))) [] Avail.fals).scopeOf
    ∧ (load autoreg st m).scope.user
      = (pass1 autoreg m.functions
          (m.importActions.foldl (applyAction autoreg)
            (tracker.start (moduleNameOf m.path, m.path))) [] Avail.fals).scopeOf.user := by
  cases hp : pass1 autoreg m.functions
      (m.importActions.foldl (applyAction autoreg)
        (tracker.start (moduleNameOf m.path, m.path))) [] Avail.fals with
  | aborted sc =>
    rw [hp] at hAv
    simp [Pass1Result.availOf] at hAv
  | ok sc cands avail =>
    rw [hp] at hAv
    simp only [Pass1Result.availOf, Option.some.injEq] at hAv
    subst hAv
    have hscope : (load autoreg st m).scope = sc := by
      rw [load]
      simp only [hImp, Bool.false_eq_true, if_false, hp]
      exact register_user_command_nil autoreg sc
    exact ⟨hscope, by rw [hscope]; rfl⟩

/-- A plugin whose legacy entry point returns the empty list while a public
callable `hello` exists. -/
def emptyInitPlugin : PyModule :=
  { path := "plugins.demo", importRaises := false, importActions := [],
    functions := [
      { name := "_initialise", params := ["handlers", "bot"],
        raisesOnTwoArgs := false, actions := [],
        outcome := InitOutcome.returns (PyRet.list []) },
      { name := "hello", params := ["bot", "event"], raisesOnTwoArgs := false,
        actions := [], outcome := InitOutcome.returns PyRet.other }] }

/-- Witness for C4: the plugin with an entry point returning `[]` ends the
load with an empty user-command set although `hello` was a candidate. -/
theorem load_explicit_empty_registers_none_witness :
    emptyInitPlugin.importRaises = false
    ∧ (pass1 (AutoRegValue.pybool true) emptyInitPlugin.functions
        (emptyInitPlugin.importActions.foldl (applyAction (AutoRegValue.pybool true))
          (tracker.start (moduleNameOf emptyInitPlugin.path, emptyInitPlugin.path)))
        [] Avail.fals).availOf = some (Avail.list [])
    ∧ (load (AutoRegValue.pybool true) initState emptyInitPlugin).scope.user
      = (pass1 (AutoRegValue.pybool true) emptyInitPlugin.functions
          (emptyInitPlugin.importActions.foldl (applyAction (AutoRegValue.pybool true))
            (tracker.start (moduleNameOf emptyInitPlugin.path, emptyInitPlugin.path)))
          [] Avail.fals).scopeOf.user
    ∧ (load (AutoRegValue.pybool true) initState emptyInitPlugin).scope.user = ∅ := by
  refine ⟨rfl, by decide, ?_, by decide⟩
  exact (load_explicit_empty_registers_none (AutoRegValue.pybool true) initState
    emptyInitPlugin rfl (by decide)).2
